import Mathlib

/-!
Verification of the trading-bot core (breakout.py, mean_reversion.py, main.py).

Numeric model: prices, shares and cash are rationals.  Pandas/numpy column
arithmetic is modelled by the type `XQ` of extended rationals, which carries
the IEEE-754 special values (`pinf`, `ninf`, `nan`) produced by division by
zero and by missing values at the head of rolling windows; every comparison
with `nan` is false, as in numpy.  Python dicts keyed by symbol are modelled
by association lists with first-occurrence lookup.

Square roots (pandas rolling `std`) and the Wilder RSI smoothing kernel are
irrational-valued in general, so the development is parametrised by a
`sqrtK : ℚ → ℚ` and an `rsiK : List ℚ → ℕ → ℚ` kernel; every theorem below
holds for all kernels, and concrete evaluations instantiate them on inputs
chosen so that the exact values are rational.
-/

set_option linter.unusedVariables false

/-- Extended rationals with the IEEE-754 special values used by numpy/pandas:
positive and negative infinity and `nan` (also standing for a missing value in
a column). -/
inductive XQ where
  | num (q : ℚ)
  | pinf
  | ninf
  | nan
deriving DecidableEq, Repr, Inhabited

namespace XQ

/-- IEEE negation. -/
def neg : XQ → XQ
  | num a => num (-a)
  | pinf => ninf
  | ninf => pinf
  | nan => nan

/-- IEEE addition: `nan` is absorbing, opposite infinities give `nan`. -/
def add : XQ → XQ → XQ
  | num a, num b => num (a + b)
  | num _, pinf => pinf
  | num _, ninf => ninf
  | pinf, num _ => pinf
  | ninf, num _ => ninf
  | pinf, pinf => pinf
  | ninf, ninf => ninf
  | pinf, ninf => nan
  | ninf, pinf => nan
  | _, _ => nan

/-- IEEE subtraction. -/
def sub (a b : XQ) : XQ := add a (neg b)

/-- IEEE multiplication: infinity times zero is `nan`, signs multiply. -/
def mul : XQ → XQ → XQ
  | num a, num b => num (a * b)
  | num a, pinf => if 0 < a then pinf else if a < 0 then ninf else nan
  | num a, ninf => if 0 < a then ninf else if a < 0 then pinf else nan
  | pinf, num b => if 0 < b then pinf else if b < 0 then ninf else nan
  | ninf, num b => if 0 < b then ninf else if b < 0 then pinf else nan
  | pinf, pinf => pinf
  | pinf, ninf => ninf
  | ninf, pinf => ninf
  | ninf, ninf => pinf
  | _, _ => nan

/-- IEEE division: finite over zero gives a signed infinity (`0/0` is `nan`),
finite over infinity gives zero, infinity over infinity is `nan`. -/
def div : XQ → XQ → XQ
  | num a, num b =>
      if b = 0 then (if 0 < a then pinf else if a < 0 then ninf else nan)
      else num (a / b)
  | num _, pinf => num 0
  | num _, ninf => num 0
  | pinf, num b => if 0 ≤ b then pinf else ninf
  | ninf, num b => if 0 ≤ b then ninf else pinf
  | _, _ => nan

/-- IEEE comparison `a ≤ b` as a boolean; any comparison with `nan` is false. -/
def leB : XQ → XQ → Bool
  | num a, num b => decide (a ≤ b)
  | num _, pinf => true
  | num _, ninf => false
  | pinf, num _ => false
  | ninf, num _ => true
  | pinf, pinf => true
  | ninf, ninf => true
  | ninf, pinf => true
  | pinf, ninf => false
  | _, _ => false

/-- IEEE comparison `a < b` as a boolean; any comparison with `nan` is false. -/
def ltB : XQ → XQ → Bool
  | num a, num b => decide (a < b)
  | num _, pinf => true
  | num _, ninf => false
  | pinf, num _ => false
  | ninf, num _ => true
  | pinf, pinf => false
  | ninf, ninf => false
  | ninf, pinf => true
  | pinf, ninf => false
  | _, _ => false

end XQ

/-- Lookup in a Python-dict model: first entry with the given key. -/
def lookupA {β : Type} : List (String × β) → String → Option β
  | [], _ => none
  | (k, v) :: es, a => if k = a then some v else lookupA es a

/-- Dict assignment `m[a] = v`: replace the first entry with key `a`, or
append a new entry (Python dicts preserve insertion order). -/
def insertA {β : Type} : List (String × β) → String → β → List (String × β)
  | [], a, v => [(a, v)]
  | (k, w) :: es, a, v => if k = a then (k, v) :: es else (k, w) :: insertA es a v

/-- Dict deletion `del m[a]`: remove the first entry with key `a`. -/
def eraseA {β : Type} : List (String × β) → String → List (String × β)
  | [], _ => []
  | (k, w) :: es, a => if k = a then es else (k, w) :: eraseA es a

/-- One OHLCV bar of the input series.  The field `openp` is the `open`
column of the source (`open` is a reserved word in Lean). -/
structure Bar where
  openp : ℚ
  high : ℚ
  low : ℚ
  close : ℚ
  volume : ℚ
deriving DecidableEq, Repr, Inhabited

/-- A pandas DataFrame as the source uses it: the OHLCV bars plus the derived
columns the source functions assign in place (`df['n_period_high'] = ...`,
`df['rsi'] = ...`, the Bollinger-band columns).  A column is `none` until some
operation assigns it. -/
structure DataFrame where
  bars : List Bar
  n_period_high : Option (List XQ) := none
  n_period_low : Option (List XQ) := none
  rsi : Option (List XQ) := none
  middle_band : Option (List XQ) := none
  std : Option (List XQ) := none
  upper_band : Option (List XQ) := none
  lower_band : Option (List XQ) := none
deriving DecidableEq, Repr, Inhabited

/-- Column builder: a pandas column over a frame of `n` rows, with the value
at row `i` given by `f i`. -/
def colOf (n : ℕ) (f : ℕ → XQ) : List XQ := (List.range n).map f

/-- Pandas `shift(1)`: a missing value enters at the head and the last value
drops off. -/
def shift1 : List XQ → List XQ
  | [] => []
  | x :: xs => XQ.nan :: (x :: xs).dropLast

/-- Maximum of a list of rationals (callers only use it on nonempty lists). -/
def maxD : List ℚ → ℚ
  | [] => 0
  | x :: xs => xs.foldl max x

/-- Minimum of a list of rationals (callers only use it on nonempty lists). -/
def minD : List ℚ → ℚ
  | [] => 0
  | x :: xs => xs.foldl min x

/-- Sum of a list of rationals. -/
def sumQ (l : List ℚ) : ℚ := l.foldl (· + ·) 0

/-- The rolling window of `w` entries ending at index `i` (pandas window
semantics, meaningful when `w ≤ i + 1`). -/
def windowEnd (l : List ℚ) (w i : ℕ) : List ℚ := (l.drop (i + 1 - w)).take w

/-- Pandas `rolling(w).max()`: missing until `w` observations are available. -/
def rollingMaxCol (w : ℕ) (l : List ℚ) : List XQ :=
  colOf l.length (fun i => if i + 1 < w then XQ.nan else XQ.num (maxD (windowEnd l w i)))

/-- Pandas `rolling(w).min()`: missing until `w` observations are available. -/
def rollingMinCol (w : ℕ) (l : List ℚ) : List XQ :=
  colOf l.length (fun i => if i + 1 < w then XQ.nan else XQ.num (minD (windowEnd l w i)))

/-- Mean of the rolling window of `w` entries ending at index `i`. -/
def meanW (l : List ℚ) (w i : ℕ) : ℚ := sumQ (windowEnd l w i) / w

/-- Last bar of a frame (callers only read it from nonempty frames). -/
def lastBar (l : List Bar) : Bar := l.getLastD default

/-- Embeds `calculate_average_volume` (breakout.py): the rolling mean of
`volume` over `period` at the last row.  Exceptions inside the try (an empty
frame raising IndexError at `iloc[-1]`, or `rolling(0)` raising ValueError)
fall back to the whole-series mean, which is itself missing on an empty
series. -/
def calculate_average_volume (bars : List Bar) (period : ℕ := 20) : XQ :=
  let vols := bars.map (·.volume)
  if period = 0 then
    (if bars.isEmpty then XQ.nan else XQ.num (sumQ vols / vols.length))
  else if bars.isEmpty then XQ.nan
  else if bars.length < period then XQ.nan
  else XQ.num (meanW vols period (bars.length - 1))

/-- Embeds `detect_breakouts` (breakout.py).  Besides the boolean result it
returns the frame, because the source assigns the `n_period_high` column on
the caller's frame in place.  A `period` of zero makes `rolling(0)` raise
ValueError, which the function's except branch turns into `False` before any
column is assigned. -/
def detect_breakouts (df : DataFrame) (period : ℕ := 20) : Bool × DataFrame :=
  if df.bars.length < period + 5 then (false, df)
  else if period = 0 then (false, df)
  else
    let highs := df.bars.map (·.high)
    let col := shift1 (rollingMaxCol period highs)
    let df2 := { df with n_period_high := some col }
    let avg_volume := calculate_average_volume df.bars period
    let cur := lastBar df.bars
    let previous_high := col.getLastD XQ.nan
    let volume_surge := XQ.ltB (XQ.mul avg_volume (XQ.num 2)) (XQ.num cur.volume)
    let price_breakout :=
      XQ.ltB previous_high (XQ.num cur.high) && XQ.ltB previous_high (XQ.num cur.close)
    (price_breakout && volume_surge, df2)

/-- Embeds `detect_breakdown` (breakout.py): the mirror of `detect_breakouts`
using the rolling minimum of `low` and reversed price inequalities, with the
same volume-surge test. -/
def detect_breakdown (df : DataFrame) (period : ℕ := 20) : Bool × DataFrame :=
  if df.bars.length < period + 5 then (false, df)
  else if period = 0 then (false, df)
  else
    let lows := df.bars.map (·.low)
    let col := shift1 (rollingMinCol period lows)
    let df2 := { df with n_period_low := some col }
    let avg_volume := calculate_average_volume df.bars period
    let cur := lastBar df.bars
    let previous_low := col.getLastD XQ.nan
    let volume_surge := XQ.ltB (XQ.mul avg_volume (XQ.num 2)) (XQ.num cur.volume)
    let price_breakdown :=
      XQ.ltB (XQ.num cur.low) previous_low && XQ.ltB (XQ.num cur.close) previous_low
    (price_breakdown && volume_surge, df2)

/-- Arithmetic mean of a group of levels. -/
def meanQ (g : List ℚ) : ℚ := sumQ g / g.length

/-- Insertion step of the ascending sort used for `sorted(levels)`. -/
def insertLevel (x : ℚ) : List ℚ → List ℚ
  | [] => [x]
  | y :: ys => if x ≤ y then x :: y :: ys else y :: insertLevel x ys

/-- Ascending sort of the candidate levels (`sorted(levels)` in the source). -/
def sortLevels : List ℚ → List ℚ
  | [] => []
  | x :: xs => insertLevel x (sortLevels xs)

/-- Loop body of `group_similar_levels`: the state is the pair of finished
group means and the open group; a level within `threshold` relative distance
of the open group's last-added member joins it, otherwise the open group's
mean is emitted and a fresh group starts. -/
def glsStep (threshold : ℚ) (st : List ℚ × List ℚ) (current_level : ℚ) : List ℚ × List ℚ :=
  let prev_level := st.2.getLastD 0
  if |current_level - prev_level| / prev_level ≤ threshold then
    (st.1, st.2 ++ [current_level])
  else
    (st.1 ++ [meanQ st.2], [current_level])

/-- Embeds `group_similar_levels` (breakout.py): sort ascending, fold the
greedy merging step over the remaining levels, and finally emit the last
group's mean. -/
def group_similar_levels (levels : List ℚ) (threshold : ℚ := 1/100) : List ℚ :=
  match sortLevels levels with
  | [] => []
  | s0 :: rest =>
    let acc := rest.foldl (glsStep threshold) ([], [s0])
    acc.1 ++ [meanQ acc.2]

/-- Specification-side grouping: walk an already sorted list keeping the
last-added member `p` of the open group `g`; a level joins the group exactly
when its relative distance to `p` is at most the threshold, otherwise the
group is closed and a new one starts. -/
def clusterAux (threshold : ℚ) : ℚ → List ℚ → List ℚ → List (List ℚ)
  | _, g, [] => [g]
  | p, g, x :: xs =>
      if |x - p| / p ≤ threshold then clusterAux threshold x (g ++ [x]) xs
      else g :: clusterAux threshold x [x] xs

/-- Specification-side clustering of a sorted list into greedy groups. -/
def clusterGroups (threshold : ℚ) : List ℚ → List (List ℚ)
  | [] => []
  | x :: xs => clusterAux threshold x [x] xs

/-- True when every entry equals the head, i.e. all successive differences of
the series vanish (the Wilder-smoothed gain and loss are then both zero and
the RSI quotient is 0/0). -/
def isConstList : List ℚ → Bool
  | [] => true
  | x :: xs => xs.all (fun y => y == x)

/-- Models the `ta.rsi(close, length)` column of pandas_ta: the library
returns no values while the series has at most `length` bars (its minimum
length guard together with `min_periods` on the Wilder smoothing), yields
`nan` where the smoothed gain and loss are both zero, and otherwise produces
the value of the Wilder kernel `rsiK` on the prefix ending at the row.  A
`length` of zero falls back to the library default 14. -/
def taRSICol (rsiK : List ℚ → ℕ → ℚ) (close : List ℚ) (length0 : ℕ) : List XQ :=
  let length := if length0 = 0 then 14 else length0
  colOf close.length (fun i =>
    if i < length then XQ.nan
    else if isConstList (close.take (i + 1)) then XQ.nan
    else XQ.num (rsiK (close.take (i + 1)) length))

/-- Embeds `calculate_rsi` (breakout.py): assign the `rsi` column on the
caller's frame, then return its last value; on an empty frame `iloc[-1]`
raises IndexError and the except branch returns 50. -/
def calculate_rsi (rsiK : List ℚ → ℕ → ℚ) (df : DataFrame) (period : ℕ := 14) :
    XQ × DataFrame :=
  let col := taRSICol rsiK (df.bars.map (·.close)) period
  let df2 := { df with rsi := some col }
  if df.bars.isEmpty then (XQ.num 50, df2)
  else (col.getLastD XQ.nan, df2)

/-- RSI-momentum factor of `analyze_breakout_quality` (up to 25 points). -/
def abq_f1 (rsi : ℚ) : ℚ :=
  if 60 ≤ rsi ∧ rsi ≤ 80 then 25
  else if 80 < rsi then 10
  else if 50 ≤ rsi then 15
  else 0

/-- Volume-confirmation factor of `analyze_breakout_quality` (up to 25
points): the last volume over the 20-period average volume, with IEEE
semantics when the average is missing or zero. -/
def abq_f2 (bars : List Bar) : ℚ :=
  let avg_volume := calculate_average_volume bars
  let latest_volume := (lastBar bars).volume
  let volQuot := XQ.div (XQ.num latest_volume) avg_volume
  if XQ.leB (XQ.num 3) volQuot then 25
  else if XQ.leB (XQ.num 2) volQuot then 20
  else if XQ.leB (XQ.num (3/2)) volQuot then 15
  else if XQ.leB (XQ.num 1) volQuot then 10
  else 0

/-- Price-action factor of `analyze_breakout_quality` (up to 25 points):
bullish candle with a small upper wick. -/
def abq_f3 (bars : List Bar) : ℚ :=
  let b := lastBar bars
  let candle_range := b.high - b.low
  let wickQuot :=
    if candle_range = 0 then 0 else (b.high - max b.openp b.close) / candle_range
  if b.openp < b.close ∧ wickQuot < 1/5 then 25
  else if b.openp < b.close then 15
  else if b.close = b.openp then 5
  else 0

/-- Volatility factor of `analyze_breakout_quality` (up to 15 points). -/
def abq_f4 (volatility : ℚ) : ℚ :=
  if 1/2 ≤ volatility ∧ volatility ≤ 2 then 15
  else if 2 < volatility ∧ volatility ≤ 4 then 10
  else if 4 < volatility then 5
  else 0

/-- Count of prior bars (via `high.shift(1)`) inside the two-percent band
around the reference high; comparisons with a missing reference are false. -/
def prevTests (bars : List Bar) (period_high : XQ) : ℕ :=
  (List.range bars.length).countP (fun i =>
    match i with
    | 0 => false
    | Nat.succ j =>
        XQ.ltB (XQ.mul period_high (XQ.num (49/50))) (XQ.num ((bars.getD j default).high)) &&
        XQ.ltB (XQ.num ((bars.getD j default).high)) (XQ.mul period_high (XQ.num (51/50))))

/-- Prior-tests factor of `analyze_breakout_quality` (up to 10 points),
active only when a `detect_breakouts` call has left the `n_period_high`
column on the frame.  An empty stored column makes `iloc[-1]` raise, and the
except branch returns the score accumulated so far — the same value as
contributing zero here, since every comparison with the missing reference
fails. -/
def abq_f5 (df : DataFrame) : ℚ :=
  match df.n_period_high with
  | none => 0
  | some col =>
      let period_high := col.getLastD XQ.nan
      let n := prevTests df.bars period_high
      if 3 ≤ n then 10 else if 1 ≤ n then 5 else 0

/-- Embeds `analyze_breakout_quality` (breakout.py): the additive five-factor
score, capped at 100.  On an empty frame the volume factor raises IndexError
reading the last volume and the except branch returns the points accumulated
so far (the RSI factor only). -/
def analyze_breakout_quality (df : DataFrame) (rsi volatility : ℚ) : ℚ :=
  if df.bars.isEmpty then
    min (abq_f1 rsi) 100
  else
    min (abq_f1 rsi + abq_f2 df.bars + abq_f3 df.bars + abq_f4 volatility + abq_f5 df) 100

/-- The `middle_band` column: rolling mean of `close` over `window` (missing
until `window` observations; `rolling(0)` never reaches here, see the band
function). -/
def middleF (l : List ℚ) (w i : ℕ) : XQ :=
  if i + 1 < w then XQ.nan else XQ.num (meanW l w i)

/-- Sample variance (pandas `std` uses `ddof=1`) of the window ending at
index `i`. -/
def varW (l : List ℚ) (w i : ℕ) : ℚ :=
  let win := windowEnd l w i
  let m := meanW l w i
  (win.foldl (fun acc x => acc + (x - m) ^ 2) 0) / ((w : ℚ) - 1)

/-- The `std` column: rolling sample standard deviation of `close`, obtained
by the square-root kernel on the sample variance; a window of one observation
gives 0/0, hence missing, as pandas does. -/
def stdF (sqrtK : ℚ → ℚ) (l : List ℚ) (w i : ℕ) : XQ :=
  if i + 1 < w ∨ w ≤ 1 then XQ.nan else XQ.num (sqrtK (varW l w i))

/-- The `upper_band` column: middle band plus `num_std` standard deviations. -/
def upperF (sqrtK : ℚ → ℚ) (l : List ℚ) (w : ℕ) (num_std : ℚ) (i : ℕ) : XQ :=
  XQ.add (middleF l w i) (XQ.mul (stdF sqrtK l w i) (XQ.num num_std))

/-- The `lower_band` column: middle band minus `num_std` standard deviations. -/
def lowerF (sqrtK : ℚ → ℚ) (l : List ℚ) (w : ℕ) (num_std : ℚ) (i : ℕ) : XQ :=
  XQ.sub (middleF l w i) (XQ.mul (stdF sqrtK l w i) (XQ.num num_std))

/-- The `pct_deviation` column of `calculate_mean_reversion_metrics`:
`(close - middle_band) / middle_band * 100` with IEEE semantics. -/
def pctDevF (l : List ℚ) (w i : ℕ) : XQ :=
  XQ.mul (XQ.div (XQ.sub (XQ.num (l.getD i 0)) (middleF l w i)) (middleF l w i)) (XQ.num 100)

/-- The `z_score` column of `calculate_mean_reversion_metrics`:
`pct_deviation / (std / middle_band * 100)` with IEEE semantics. -/
def zScoreF (sqrtK : ℚ → ℚ) (l : List ℚ) (w i : ℕ) : XQ :=
  XQ.div (pctDevF l w i)
    (XQ.mul (XQ.div (stdF sqrtK l w i) (middleF l w i)) (XQ.num 100))

/-- Embeds `calculate_bollinger_bands` (mean_reversion.py): assigns the four
band columns on the caller's frame and returns it.  A `window` of zero makes
`rolling(0)` raise ValueError, which the except branch turns into returning
the frame unchanged. -/
def calculate_bollinger_bands (sqrtK : ℚ → ℚ) (df : DataFrame) (window : ℕ := 20)
    (num_std : ℚ := 2) : DataFrame :=
  if window = 0 then df
  else
    let l := df.bars.map (·.close)
    let n := l.length
    { df with
      middle_band := some (colOf n (middleF l window)),
      std := some (colOf n (stdF sqrtK l window)),
      upper_band := some (colOf n (upperF sqrtK l window num_std)),
      lower_band := some (colOf n (lowerF sqrtK l window num_std)) }

/-- Deviation-from-mean factor of `get_mean_reversion_score` (up to 30
points); comparisons with a missing deviation are false. -/
def mrs_f1 (bars : List Bar) (window : ℕ) : ℚ :=
  let l := bars.map (·.close)
  let pd := pctDevF l window (l.length - 1)
  if XQ.leB pd (XQ.num (-5)) then 30
  else if XQ.leB pd (XQ.num (-4)) then 25
  else if XQ.leB pd (XQ.num (-3)) then 20
  else if XQ.leB pd (XQ.num (-2)) then 15
  else if XQ.leB pd (XQ.num (-1)) then 10
  else 0

/-- RSI factor of `get_mean_reversion_score` (up to 25 points); the `rsi`
column is `ta.rsi(close, 14)` and comparisons with a missing RSI are false. -/
def mrs_f2 (rsiK : List ℚ → ℕ → ℚ) (bars : List Bar) : ℚ :=
  let l := bars.map (·.close)
  let rsi := (taRSICol rsiK l 14).getLastD XQ.nan
  if XQ.leB rsi (XQ.num 20) then 25
  else if XQ.leB rsi (XQ.num 25) then 20
  else if XQ.leB rsi (XQ.num 30) then 15
  else if XQ.leB rsi (XQ.num 35) then 10
  else if XQ.leB rsi (XQ.num 40) then 5
  else 0

/-- The condition under which the bounce factor of `get_mean_reversion_score`
raises: with at least three bars, when the third-from-last close is at or
below its lower band, the first conjunct of the bounce test holds and the
next conjunct evaluates `prev1['close'].shift(1)` — calling `shift` on a
float scalar, an AttributeError. -/
def mrs_raises (sqrtK : ℚ → ℚ) (bars : List Bar) (window : ℕ) : Bool :=
  let l := bars.map (·.close)
  let n := l.length
  3 ≤ n && XQ.leB (XQ.num (l.getD (n - 3) 0)) (lowerF sqrtK l window 2 (n - 3))

/-- Bounce factor of `get_mean_reversion_score` (the reachable branch, 10
points): the second-from-last close at or below its lower band and the last
close above it.  The 15-point branch is unreachable — whenever its first
conjunct holds the test raises instead (`mrs_raises`). -/
def mrs_f3 (sqrtK : ℚ → ℚ) (bars : List Bar) (window : ℕ) : ℚ :=
  let l := bars.map (·.close)
  let n := l.length
  if 3 ≤ n ∧
      XQ.leB (XQ.num (l.getD (n - 2) 0)) (lowerF sqrtK l window 2 (n - 2)) = true ∧
      l.getD (n - 2) 0 < l.getD (n - 1) 0 then 10
  else 0

/-- Volume factor of `get_mean_reversion_score` (up to 15 points); the source
guards the quotient with `if avg_vol > 0 else 1`. -/
def mrs_f4 (bars : List Bar) (window : ℕ) : ℚ :=
  let vols := bars.map (·.volume)
  let avg_vol := meanW vols window (vols.length - 1)
  let current_vol := (lastBar bars).volume
  let volQuot := if 0 < avg_vol then current_vol / avg_vol else 1
  if 2 ≤ volQuot then 15
  else if 3/2 ≤ volQuot then 10
  else if 1 ≤ volQuot then 5
  else 0

/-- Historical-reversion factor of `get_mean_reversion_score` (up to 15
points): over all rows whose z-score is at most the last row's z-score, the
fraction for which `close` comes back to at least `middle_band` within the
next (at most 20) rows; rows with no forward window stay in the denominator
but never count as successes. -/
def mrs_f5 (sqrtK : ℚ → ℚ) (bars : List Bar) (window : ℕ) : ℚ :=
  let l := bars.map (·.close)
  let n := l.length
  let z := fun i => zScoreF sqrtK l window i
  let hist := (List.range n).filter (fun i => XQ.leB (z i) (z (n - 1)))
  let success_count := hist.countP (fun i =>
    let fw := min 20 (n - i - 1)
    decide (0 < fw) &&
      (List.range fw).any (fun j => XQ.leB (middleF l window (i + 1 + j)) (XQ.num (l.getD (i + 1 + j) 0))))
  let success_rate := if hist.length = 0 then (0 : ℚ) else (success_count : ℚ) / hist.length
  if 4/5 ≤ success_rate then 15
  else if 3/5 ≤ success_rate then 10
  else if 2/5 ≤ success_rate then 5
  else 0

/-- Embeds `get_mean_reversion_score` (mean_reversion.py): zero on short
input; zero when the bounce factor raises (the single except handler wraps
the whole factor chain and returns 0, discarding the points the earlier
factors had accumulated); otherwise the additive five-factor score capped at
100.  A `window` of zero leads to a chain of caught exceptions ending in the
same handler, also returning 0. -/
def get_mean_reversion_score (sqrtK : ℚ → ℚ) (rsiK : List ℚ → ℕ → ℚ)
    (bars : List Bar) (window : ℕ := 20) : ℚ :=
  if bars.length < window then 0
  else if window = 0 then 0
  else if mrs_raises sqrtK bars window then 0
  else
    min (mrs_f1 bars window + mrs_f2 rsiK bars + mrs_f3 sqrtK bars window +
      mrs_f4 bars window + mrs_f5 sqrtK bars window) 100

/-- Trading parameter `MAX_RISK_PER_TRADE` of main.py. -/
def MAX_RISK_PER_TRADE : ℚ := 50

/-- Trading parameter `STOP_LOSS_PERCENT` of main.py. -/
def STOP_LOSS_PERCENT : ℚ := 5/100

/-- Trading parameter `TRAILING_STOP_PERCENT` of main.py. -/
def TRAILING_STOP_PERCENT : ℚ := 10/100

/-- Trading parameter `MAX_DAILY_LOSS_PERCENT` of main.py. -/
def MAX_DAILY_LOSS_PERCENT : ℚ := 15/100

/-- One entry of `TradingBot.positions`. -/
structure Position where
  shares : ℚ
  entry_price : ℚ
  strategy : String
deriving DecidableEq, Repr, Inhabited

/-- The mutable bookkeeping state of `TradingBot` (the trade log is an
external append-only sink and carries no state read back by the core). -/
structure BotState where
  cash : ℚ
  positions : List (String × Position)
  daily_pl : ℚ
  starting_day_value : ℚ
  trailing_stops : List (String × ℚ)
deriving DecidableEq, Repr, Inhabited

/-- Embeds `TradingBot.can_make_trade`: false when the risk amount exceeds
the per-trade maximum or the daily-loss circuit breaker has tripped. -/
def can_make_trade (s : BotState) (risk_amount : ℚ) : Bool :=
  if risk_amount > MAX_RISK_PER_TRADE then false
  else if s.daily_pl ≤ -MAX_DAILY_LOSS_PERCENT * s.starting_day_value then false
  else true

/-- Embeds `TradingBot.execute_buy`.  `orderOk` is the outcome of the broker
order submission (an external collaborator); when it fails, the except branch
returns false before any bookkeeping.  The result is `none` exactly when
`shares = amount / price` raises ZeroDivisionError (a zero price), which can
not happen from the call sites in main.py since they all guard on a truthy
price. -/
def execute_buy (orderOk : Bool) (s : BotState) (symbol : String)
    (price amount : ℚ) (strategy : String) : Option (Bool × BotState) :=
  if ¬ can_make_trade s amount then some (false, s)
  else if price = 0 then none
  else
    let shares := amount / price
    if amount > s.cash then some (false, s)
    else if ¬ orderOk then some (false, s)
    else
      let positions2 :=
        match lookupA s.positions symbol with
        | none => insertA s.positions symbol ⟨shares, price, strategy⟩
        | some p =>
            let total_shares := p.shares + shares
            let avg_price := (p.shares * p.entry_price + shares * price) / total_shares
            insertA s.positions symbol ⟨total_shares, avg_price, strategy⟩
      let stops2 :=
        if strategy = "breakout" then
          insertA s.trailing_stops symbol (price * (1 - TRAILING_STOP_PERCENT))
        else s.trailing_stops
      some (true, { s with cash := s.cash - amount, positions := positions2,
                           trailing_stops := stops2 })

/-- Embeds `TradingBot.execute_sell`.  `orderOk` is the outcome of the broker
order submission; on failure the except branch returns false with no state
change.  With no position for the symbol the method returns false after the
(already submitted) order, again with no local state change.  Otherwise:
realized P&L over the requested shares, cash credited with the requested
shares times the exit price, and the position removed (with its trailing
stop) when the held shares are at most the requested shares, else reduced. -/
def execute_sell (orderOk : Bool) (s : BotState) (symbol : String)
    (price shares : ℚ) : Bool × BotState :=
  if ¬ orderOk then (false, s)
  else
    match lookupA s.positions symbol with
    | none => (false, s)
    | some p =>
        let pnl := (price - p.entry_price) * shares
        let s2 := { s with daily_pl := s.daily_pl + pnl, cash := s.cash + shares * price }
        if p.shares ≤ shares then
          (true, { s2 with positions := eraseA s2.positions symbol,
                           trailing_stops := eraseA s2.trailing_stops symbol })
        else
          (true, { s2 with positions := insertA s2.positions symbol
                             { p with shares := p.shares - shares } })

/-- One iteration of the `check_stop_losses` loop for one symbol.  `priceOf`
is the external price feed; `none` — and also a price of zero, since
`if not current_price` tests Python truthiness — skips the symbol.  `ok`
gives the broker outcome of any sell the iteration submits. -/
def stop_loss_step (ok : String → Bool) (priceOf : String → Option ℚ)
    (s : BotState) (symbol : String) : BotState :=
  match lookupA s.positions symbol with
  | none => s
  | some position =>
      match priceOf symbol with
      | none => s
      | some current_price =>
          if current_price = 0 then s
          else if current_price ≤ position.entry_price * (1 - STOP_LOSS_PERCENT) then
            (execute_sell (ok symbol) s symbol current_price position.shares).2
          else if position.strategy = "breakout" then
            match lookupA s.trailing_stops symbol with
            | none => s
            | some t =>
                if current_price ≤ t then
                  (execute_sell (ok symbol) s symbol current_price position.shares).2
                else if current_price > t / (1 - TRAILING_STOP_PERCENT) then
                  let stops2 :=
                    insertA s.trailing_stops symbol (current_price * (1 - TRAILING_STOP_PERCENT))
                  { s with trailing_stops := stops2 }
                else s
          else s

/-- Embeds `TradingBot.check_stop_losses`: iterate the per-symbol step over
the snapshot of position keys taken at entry
(`for symbol, position in list(self.positions.items())`). -/
def check_stop_losses (ok : String → Bool) (priceOf : String → Option ℚ)
    (s : BotState) : BotState :=
  (s.positions.map Prod.fst).foldl (stop_loss_step ok priceOf) s

/-- Constant RSI kernel used to instantiate concrete evaluations. -/
def constRSIK (c : ℚ) : List ℚ → ℕ → ℚ := fun _ _ => c

/-- Square-root kernel for concrete evaluations whose sample variances are
the perfect square 4. -/
def sqrtK4 : ℚ → ℚ := fun x => if x = 4 then 2 else 0

/-- A flat bar: all four prices equal, volume 1000. -/
def flatBar (c : ℚ) : Bar := { openp := c, high := c, low := c, close := c, volume := 1000 }

/-- A broker stub whose order submissions always succeed. -/
def allOk : String → Bool := fun _ => true

/-- A price feed quoting the same price for every symbol. -/
def priceAt (p : ℚ) : String → Option ℚ := fun _ => some p

/-- Fresh bot state for the buy-rejection evaluation. -/
def c1_state : BotState :=
  { cash := 100, positions := [], daily_pl := 0, starting_day_value := 100, trailing_stops := [] }

/-- Fresh bot state for the trailing-stop evaluations. -/
def c2_s0 : BotState :=
  { cash := 100, positions := [], daily_pl := 0, starting_day_value := 100, trailing_stops := [] }

/-- State after a first breakout buy of 40 at price 100 from `c2_s0`. -/
def c2_s1 : BotState :=
  ((execute_buy true c2_s0 "AAPL" 100 40 "breakout").getD (false, c2_s0)).2

/-- State after a second breakout buy of 40 at price 92 from `c2_s1`. -/
def c2_s2 : BotState :=
  ((execute_buy true c2_s1 "AAPL" 92 40 "breakout").getD (false, c2_s1)).2

/-- Bot state holding one breakout position with a trailing stop at 90. -/
def c2m_state : BotState :=
  { cash := 0, positions := [("AAPL", { shares := 1, entry_price := 100, strategy := "breakout" })],
    daily_pl := 0, starting_day_value := 100, trailing_stops := [("AAPL", 90)] }

/-- Bot state holding ten shares of XYZ at entry 100. -/
def c3_state : BotState :=
  { cash := 0, positions := [("XYZ", { shares := 10, entry_price := 100, strategy := "sentiment" })],
    daily_pl := 0, starting_day_value := 100, trailing_stops := [] }

/-- Bot state holding ten shares of XYZ at entry 100 with a trailing stop. -/
def c10_state : BotState :=
  { cash := 0, positions := [("XYZ", { shares := 10, entry_price := 100, strategy := "breakout" })],
    daily_pl := 0, starting_day_value := 100, trailing_stops := [("XYZ", 90)] }

/-- Twenty-five bars: a flat high of 100, then a last bar with high 105,
close 104.5 and volume 3000 against a 1000 baseline. -/
def c4_df : DataFrame :=
  { bars := List.replicate 24 { openp := 99, high := 100, low := 98, close := 99, volume := 1000 }
      ++ [{ openp := 104, high := 105, low := 104, close := 209/2, volume := 3000 }] }

/-- Twenty-two flat-then-falling bars: the 20-bar window ending at the third
bar from the end has mean 100 and sample variance 4, its close 94 sits below
the lower band 96, and the last close 80 deviates far below its window
mean. -/
def c5_bars : List Bar :=
  List.replicate 14 (flatBar 100) ++
    [flatBar 106, flatBar 101, flatBar 101, flatBar 99, flatBar 99, flatBar 94,
     flatBar 90, flatBar 80]

/-- A frame with no bars. -/
def emptyDF : DataFrame := { bars := [] }

/-- Five bars, fewer than the 14-bar RSI period. -/
def c6_df : DataFrame :=
  { bars := [flatBar 1, flatBar 2, flatBar 3, flatBar 4, flatBar 5] }

/-- Twenty-five flat bars with no derived columns assigned. -/
def c7_df : DataFrame := { bars := List.replicate 25 (flatBar 100) }

/-- Specification-side reference value: the maximum of `high` over the
`period` bars immediately before the last bar (the prior window, excluding
the current bar). -/
def priorWindowHigh (bars : List Bar) (period : ℕ) : ℚ :=
  maxD (((bars.map (·.high)).drop (bars.length - 1 - period)).take period)

/-- Specification-side reference value: the minimum of `low` over the
`period` bars immediately before the last bar. -/
def priorWindowLow (bars : List Bar) (period : ℕ) : ℚ :=
  minD (((bars.map (·.low)).drop (bars.length - 1 - period)).take period)

/-- Specification-side reference value: the average volume over the trailing
`period` bars (including the current bar). -/
def trailingAvgVolume (bars : List Bar) (period : ℕ) : ℚ :=
  sumQ ((bars.map (·.volume)).drop (bars.length - period)) / period

/-! Theorems.  First the library of small lemmas shared by the claim
theorems, then one theorem per claim (with witnesses and
counterexamples). -/

set_option maxRecDepth 3000

@[simp] theorem XQ.ltB_num_num (a b : ℚ) : XQ.ltB (XQ.num a) (XQ.num b) = decide (a < b) := rfl

@[simp] theorem XQ.leB_num_num (a b : ℚ) : XQ.leB (XQ.num a) (XQ.num b) = decide (a ≤ b) := rfl

theorem lookupA_insertA_self {β : Type} (m : List (String × β)) (a : String) (v : β) :
    lookupA (insertA m a v) a = some v := by
  induction m with
  | nil => simp [insertA, lookupA]
  | cons e es ih =>
      obtain ⟨k, w⟩ := e
      by_cases h : k = a <;> simp [insertA, lookupA, h, ih]

theorem lookupA_insertA_ne {β : Type} (m : List (String × β)) (a x : String) (v : β)
    (h : x ≠ a) : lookupA (insertA m a v) x = lookupA m x := by
  have h2 : a ≠ x := Ne.symm h
  induction m with
  | nil => simp [insertA, lookupA, h2]
  | cons e es ih =>
      obtain ⟨k, w⟩ := e
      by_cases hk : k = a
      · subst hk
        simp [insertA, lookupA, h2]
      · simp only [insertA, if_neg hk, lookupA]
        by_cases hx : k = x <;> simp [hx, ih]

theorem lookupA_eraseA_ne {β : Type} (m : List (String × β)) (a x : String)
    (h : x ≠ a) : lookupA (eraseA m a) x = lookupA m x := by
  have h2 : a ≠ x := Ne.symm h
  induction m with
  | nil => simp [eraseA]
  | cons e es ih =>
      obtain ⟨k, w⟩ := e
      by_cases hk : k = a
      · subst hk
        simp [eraseA, lookupA, h2]
      · simp only [eraseA, if_neg hk, lookupA]
        by_cases hx : k = x <;> simp [hx, ih]

theorem lookupA_eq_none_of_not_mem {β : Type} (m : List (String × β)) (x : String)
    (h : x ∉ m.map Prod.fst) : lookupA m x = none := by
  induction m with
  | nil => rfl
  | cons e es ih =>
      obtain ⟨k, w⟩ := e
      simp only [List.map_cons, List.mem_cons, not_or] at h
      simp [lookupA, Ne.symm h.1, ih h.2]

theorem lookupA_eraseA_self {β : Type} (m : List (String × β)) (a : String)
    (h : (m.map Prod.fst).Nodup) : lookupA (eraseA m a) a = none := by
  induction m with
  | nil => simp [eraseA, lookupA]
  | cons e es ih =>
      obtain ⟨k, w⟩ := e
      simp only [List.map_cons, List.nodup_cons] at h
      by_cases hk : k = a
      · subst hk
        simpa [eraseA] using lookupA_eq_none_of_not_mem es k h.1
      · simp [eraseA, lookupA, hk, ih h.2]

theorem mem_keys_insertA {β : Type} (m : List (String × β)) (a x : String) (v : β) :
    x ∈ ((insertA m a v).map Prod.fst) ↔ x = a ∨ x ∈ (m.map Prod.fst) := by
  induction m with
  | nil => simp [insertA]
  | cons e es ih =>
      obtain ⟨k, w⟩ := e
      by_cases hk : k = a
      · subst hk
        simp [insertA]
      · simp [insertA, hk, ih]
        tauto

theorem keys_insertA {β : Type} (m : List (String × β)) (a : String) (v : β)
    (h : (m.map Prod.fst).Nodup) : ((insertA m a v).map Prod.fst).Nodup := by
  induction m with
  | nil => simp [insertA]
  | cons e es ih =>
      obtain ⟨k, w⟩ := e
      simp only [List.map_cons, List.nodup_cons] at h
      by_cases hk : k = a
      · subst hk
        have hins : insertA ((k, w) :: es) k v = (k, v) :: es := by simp [insertA]
        rw [hins]
        simp only [List.map_cons, List.nodup_cons]
        exact ⟨h.1, h.2⟩
      · simp only [insertA, if_neg hk, List.map_cons, List.nodup_cons]
        refine ⟨fun hmem => ?_, ih h.2⟩
        rcases (mem_keys_insertA es a k v).mp hmem with h3 | h3
        · exact hk h3
        · exact h.1 h3

theorem keys_eraseA_sublist {β : Type} (m : List (String × β)) (a : String) :
    ((eraseA m a).map Prod.fst).Sublist (m.map Prod.fst) := by
  induction m with
  | nil => simp [eraseA]
  | cons e es ih =>
      obtain ⟨k, w⟩ := e
      by_cases hk : k = a
      · simp only [eraseA, if_pos hk, List.map_cons]
        exact (List.Sublist.refl _).cons _
      · simp only [eraseA, if_neg hk, List.map_cons]
        exact ih.cons₂ k

theorem keys_eraseA {β : Type} (m : List (String × β)) (a : String)
    (h : (m.map Prod.fst).Nodup) : ((eraseA m a).map Prod.fst).Nodup :=
  h.sublist (keys_eraseA_sublist m a)


theorem colOf_concat (n : ℕ) (f : ℕ → XQ) : colOf (n + 1) f = colOf n f ++ [f n] := by
  simp [colOf, List.range_succ]

theorem colOf_getLastD (n : ℕ) (f : ℕ → XQ) (d : XQ) :
    (colOf (n + 1) f).getLastD d = f n := by
  rw [colOf_concat, List.getLastD_eq_getLast?, List.getLast?_concat]
  rfl

theorem colOf_dropLast (n : ℕ) (f : ℕ → XQ) : (colOf (n + 1) f).dropLast = colOf n f := by
  rw [colOf_concat]
  exact List.dropLast_concat

theorem shift1_eq_cons (l : List XQ) (h : l ≠ []) : shift1 l = XQ.nan :: l.dropLast := by
  cases l with
  | nil => exact absurd rfl h
  | cons x xs => rfl

theorem colOf_ne_nil (n : ℕ) (f : ℕ → XQ) : colOf (n + 1) f ≠ [] := by
  rw [colOf_concat]
  simp

theorem shift1_colOf_getLastD (n : ℕ) (f : ℕ → XQ) (d : XQ) :
    (shift1 (colOf (n + 2) f)).getLastD d = f n := by
  rw [shift1_eq_cons _ (colOf_ne_nil (n + 1) f), colOf_dropLast, List.getLastD_cons]
  exact colOf_getLastD n f _

theorem take_drop_self (l : List ℚ) (p : ℕ) (h : p ≤ l.length) :
    (l.drop (l.length - p)).take p = l.drop (l.length - p) := by
  apply List.take_of_length_le
  rw [List.length_drop]
  omega

theorem abq_f1_bounds (r : ℚ) : 0 ≤ abq_f1 r ∧ abq_f1 r ≤ 25 := by
  unfold abq_f1
  split_ifs <;> norm_num

theorem abq_f2_bounds (bars : List Bar) : 0 ≤ abq_f2 bars ∧ abq_f2 bars ≤ 25 := by
  unfold abq_f2
  dsimp only
  split_ifs <;> norm_num

theorem abq_f3_bounds (bars : List Bar) : 0 ≤ abq_f3 bars ∧ abq_f3 bars ≤ 25 := by
  unfold abq_f3
  dsimp only
  split_ifs <;> norm_num

theorem abq_f4_bounds (v : ℚ) : 0 ≤ abq_f4 v ∧ abq_f4 v ≤ 15 := by
  unfold abq_f4
  split_ifs <;> norm_num

theorem abq_f5_bounds (df : DataFrame) : 0 ≤ abq_f5 df ∧ abq_f5 df ≤ 10 := by
  unfold abq_f5
  cases df.n_period_high with
  | none => norm_num
  | some col =>
      dsimp only
      split_ifs <;> norm_num

theorem mrs_f1_bounds (bars : List Bar) (w : ℕ) : 0 ≤ mrs_f1 bars w ∧ mrs_f1 bars w ≤ 30 := by
  unfold mrs_f1
  dsimp only
  split_ifs <;> norm_num

theorem mrs_f2_bounds (rsiK : List ℚ → ℕ → ℚ) (bars : List Bar) :
    0 ≤ mrs_f2 rsiK bars ∧ mrs_f2 rsiK bars ≤ 25 := by
  unfold mrs_f2
  dsimp only
  split_ifs <;> norm_num

theorem mrs_f3_bounds (sqrtK : ℚ → ℚ) (bars : List Bar) (w : ℕ) :
    0 ≤ mrs_f3 sqrtK bars w ∧ mrs_f3 sqrtK bars w ≤ 10 := by
  unfold mrs_f3
  dsimp only
  split_ifs <;> norm_num

theorem mrs_f4_bounds (bars : List Bar) (w : ℕ) : 0 ≤ mrs_f4 bars w ∧ mrs_f4 bars w ≤ 15 := by
  unfold mrs_f4
  dsimp only
  split_ifs <;> norm_num

theorem mrs_f5_bounds (sqrtK : ℚ → ℚ) (bars : List Bar) (w : ℕ) :
    0 ≤ mrs_f5 sqrtK bars w ∧ mrs_f5 sqrtK bars w ≤ 15 := by
  unfold mrs_f5
  dsimp only
  split_ifs <;> norm_num

theorem glsStep_foldl (t : ℚ) (rest : List ℚ) :
    ∀ (grouped g : List ℚ), g ≠ [] →
      (rest.foldl (glsStep t) (grouped, g)).1 ++ [meanQ (rest.foldl (glsStep t) (grouped, g)).2]
        = grouped ++ (clusterAux t (g.getLastD 0) g rest).map meanQ := by
  induction rest with
  | nil =>
      intro grouped g hg
      simp [clusterAux]
  | cons x xs ih =>
      intro grouped g hg
      simp only [List.foldl_cons, glsStep]
      by_cases hc : |x - g.getLastD 0| / g.getLastD 0 ≤ t
      · rw [if_pos hc]
        have hstep := ih grouped (g ++ [x]) (by simp)
        have hlast : (g ++ [x]).getLastD 0 = x := by
          rw [List.getLastD_eq_getLast?, List.getLast?_concat]
          rfl
        rw [hstep, hlast]
        conv_rhs => rw [clusterAux]
        rw [if_pos hc]
      · rw [if_neg hc]
        have hstep := ih (grouped ++ [meanQ g]) [x] (by simp)
        rw [hstep]
        conv_rhs => rw [clusterAux]
        rw [if_neg hc]
        simp [List.append_assoc]

theorem lookupA_eraseA_of_none {β : Type} (m : List (String × β)) (a x : String)
    (h : lookupA m x = none) : lookupA (eraseA m a) x = none := by
  induction m with
  | nil => rfl
  | cons e es ih =>
      obtain ⟨k, w⟩ := e
      by_cases hkx : k = x
      · subst hkx
        simp [lookupA] at h
      · simp only [lookupA, if_neg hkx] at h
        by_cases hka : k = a
        · simpa [eraseA, hka] using h
        · simp [eraseA, hka, lookupA, hkx, ih h]

theorem execute_sell_stops_cases (o : Bool) (s : BotState) (symbol : String)
    (price shares : ℚ) :
    (execute_sell o s symbol price shares).2.trailing_stops = s.trailing_stops ∨
    (execute_sell o s symbol price shares).2.trailing_stops = eraseA s.trailing_stops symbol := by
  unfold execute_sell
  cases o with
  | false => left; rfl
  | true =>
      cases hp : lookupA s.positions symbol with
      | none => left; simp
      | some p =>
          dsimp only
          by_cases hf : p.shares ≤ shares
          · right
            simp [hf]
          · left
            simp [hf]

theorem stop_loss_step_stops_cases (ok : String → Bool) (priceOf : String → Option ℚ)
    (s : BotState) (symbol : String) :
    (stop_loss_step ok priceOf s symbol).trailing_stops = s.trailing_stops ∨
    (stop_loss_step ok priceOf s symbol).trailing_stops = eraseA s.trailing_stops symbol ∨
    (∃ t0 cp, lookupA s.trailing_stops symbol = some t0 ∧
       t0 / (1 - TRAILING_STOP_PERCENT) < cp ∧
       (stop_loss_step ok priceOf s symbol).trailing_stops
         = insertA s.trailing_stops symbol (cp * (1 - TRAILING_STOP_PERCENT))) := by
  unfold stop_loss_step
  cases hp : lookupA s.positions symbol with
  | none => left; rfl
  | some position =>
      cases hq : priceOf symbol with
      | none => left; rfl
      | some cp =>
          dsimp only
          by_cases h0 : cp = 0
          · left; simp [h0]
          · rw [if_neg h0]
            by_cases h1 : cp ≤ position.entry_price * (1 - STOP_LOSS_PERCENT)
            · rw [if_pos h1]
              rcases execute_sell_stops_cases (ok symbol) s symbol cp position.shares with h | h
              · left; exact h
              · right; left; exact h
            · rw [if_neg h1]
              by_cases h2 : position.strategy = "breakout"
              · rw [if_pos h2]
                cases ht : lookupA s.trailing_stops symbol with
                | none => left; rfl
                | some t0 =>
                    dsimp only
                    by_cases h3 : cp ≤ t0
                    · rw [if_pos h3]
                      rcases execute_sell_stops_cases (ok symbol) s symbol cp position.shares with h | h
                      · left; exact h
                      · right; left; exact h
                    · rw [if_neg h3]
                      by_cases h4 : cp > t0 / (1 - TRAILING_STOP_PERCENT)
                      · rw [if_pos h4]
                        right; right
                        exact ⟨t0, cp, rfl, h4, rfl⟩
                      · rw [if_neg h4]
                        left; rfl
              · rw [if_neg h2]
                left; rfl

theorem stop_loss_step_mono (ok : String → Bool) (priceOf : String → Option ℚ)
    (s : BotState) (symbol x : String) (t t2 : ℚ)
    (hn : (s.trailing_stops.map Prod.fst).Nodup)
    (hb : lookupA s.trailing_stops x = some t)
    (ha : lookupA (stop_loss_step ok priceOf s symbol).trailing_stops x = some t2) :
    t ≤ t2 := by
  rcases stop_loss_step_stops_cases ok priceOf s symbol with h | h | ⟨t0, cp, ht0, hgt, h⟩
  · rw [h, hb] at ha
    exact le_of_eq (Option.some.inj ha)
  · rw [h] at ha
    by_cases hx : x = symbol
    · subst hx
      rw [lookupA_eraseA_self _ _ hn] at ha
      exact absurd ha (by simp)
    · rw [lookupA_eraseA_ne _ _ _ hx, hb] at ha
      exact le_of_eq (Option.some.inj ha)
  · rw [h] at ha
    by_cases hx : x = symbol
    · subst hx
      rw [lookupA_insertA_self] at ha
      have ht : t = t0 := by
        rw [hb] at ht0
        exact Option.some.inj ht0
      have h2 : t2 = cp * (1 - TRAILING_STOP_PERCENT) := (Option.some.inj ha).symm
      subst ht h2
      have hpos : (0 : ℚ) < 1 - TRAILING_STOP_PERCENT := by norm_num [TRAILING_STOP_PERCENT]
      have := (div_lt_iff₀ hpos).mp hgt
      linarith
    · rw [lookupA_insertA_ne _ _ _ _ hx, hb] at ha
      exact le_of_eq (Option.some.inj ha)

theorem stop_loss_step_stops_none (ok : String → Bool) (priceOf : String → Option ℚ)
    (s : BotState) (symbol x : String)
    (h0 : lookupA s.trailing_stops x = none) :
    lookupA (stop_loss_step ok priceOf s symbol).trailing_stops x = none := by
  rcases stop_loss_step_stops_cases ok priceOf s symbol with h | h | ⟨t0, cp, ht0, hgt, h⟩
  · rw [h, h0]
  · rw [h]
    exact lookupA_eraseA_of_none _ _ _ h0
  · rw [h]
    by_cases hx : x = symbol
    · subst hx
      rw [h0] at ht0
      exact absurd ht0 (by simp)
    · rw [lookupA_insertA_ne _ _ _ _ hx, h0]

theorem stop_loss_step_stops_nodup (ok : String → Bool) (priceOf : String → Option ℚ)
    (s : BotState) (symbol : String)
    (hn : (s.trailing_stops.map Prod.fst).Nodup) :
    (((stop_loss_step ok priceOf s symbol).trailing_stops).map Prod.fst).Nodup := by
  rcases stop_loss_step_stops_cases ok priceOf s symbol with h | h | ⟨t0, cp, ht0, hgt, h⟩
  · rw [h]; exact hn
  · rw [h]; exact keys_eraseA _ _ hn
  · rw [h]; exact keys_insertA _ _ _ hn

theorem foldl_stop_loss_stops_none (ok : String → Bool) (priceOf : String → Option ℚ)
    (syms : List String) :
    ∀ (s : BotState) (x : String), lookupA s.trailing_stops x = none →
      lookupA ((syms.foldl (stop_loss_step ok priceOf) s)).trailing_stops x = none := by
  induction syms with
  | nil => intro s x h; exact h
  | cons sym rest ih =>
      intro s x h
      simp only [List.foldl_cons]
      exact ih _ _ (stop_loss_step_stops_none ok priceOf s sym x h)

theorem foldl_stop_loss_mono (ok : String → Bool) (priceOf : String → Option ℚ)
    (syms : List String) :
    ∀ (s : BotState) (x : String) (t t2 : ℚ),
      (s.trailing_stops.map Prod.fst).Nodup →
      lookupA s.trailing_stops x = some t →
      lookupA ((syms.foldl (stop_loss_step ok priceOf) s)).trailing_stops x = some t2 →
      t ≤ t2 := by
  induction syms with
  | nil =>
      intro s x t t2 hn hb ha
      simp only [List.foldl_nil] at ha
      rw [hb] at ha
      exact le_of_eq (Option.some.inj ha)
  | cons sym rest ih =>
      intro s x t t2 hn hb ha
      simp only [List.foldl_cons] at ha
      cases h1 : lookupA (stop_loss_step ok priceOf s sym).trailing_stops x with
      | none =>
          rw [foldl_stop_loss_stops_none ok priceOf rest _ _ h1] at ha
          exact absurd ha (by simp)
      | some t1 =>
          have h01 : t ≤ t1 := stop_loss_step_mono ok priceOf s sym x t t1 hn hb h1
          have h12 : t1 ≤ t2 :=
            ih _ x t1 t2 (stop_loss_step_stops_nodup ok priceOf s sym hn) h1 ha
          exact le_trans h01 h12

/-- C1: every buy request whose risk amount exceeds `MAX_RISK_PER_TRADE`, or
arriving while `daily_pl ≤ -MAX_DAILY_LOSS_PERCENT * starting_day_value`
(the circuit breaker), or asking for more than the available cash, returns
false and leaves cash, positions, trailing stops and daily P&L exactly
unchanged.  (The cash test needs a nonzero price only because the share
computation precedes it; all call sites in main.py guard on a truthy
price.) -/
theorem buy_admission_rejects_without_side_effects (orderOk : Bool) (s : BotState)
    (symbol strategy : String) (price amount : ℚ)
    (h : amount > MAX_RISK_PER_TRADE ∨
         s.daily_pl ≤ -MAX_DAILY_LOSS_PERCENT * s.starting_day_value ∨
         (price ≠ 0 ∧ amount > s.cash)) :
    execute_buy orderOk s symbol price amount strategy = some (false, s) := by
  rcases h with h | h | ⟨hp, hc⟩
  · have hcmt : can_make_trade s amount = false := by
      unfold can_make_trade
      rw [if_pos h]
    simp [execute_buy, hcmt]
  · have hcmt : can_make_trade s amount = false := by
      unfold can_make_trade
      split_ifs <;> rfl
    simp [execute_buy, hcmt]
  · by_cases hcmt : can_make_trade s amount = true
    · simp [execute_buy, hcmt, hp, hc]
    · simp [execute_buy, hcmt]

/-- Witness for C1: a 60-dollar buy request against the 50-dollar per-trade
cap, from a fresh bot state, is rejected with the state unchanged. -/
theorem buy_admission_rejects_witness :
    (60 : ℚ) > MAX_RISK_PER_TRADE ∧
    execute_buy true c1_state "AAPL" 10 60 "sentiment" = some (false, c1_state) := by
  constructor
  · norm_num [MAX_RISK_PER_TRADE]
  · exact buy_admission_rejects_without_side_effects true c1_state "AAPL" "sentiment" 10 60
      (Or.inl (by norm_num [MAX_RISK_PER_TRADE]))

/-- C3: selling `shares` of an existing position (with `shares` at most the
held amount, broker success) realizes P&L `(exit - entry) * shares`, adds it
to the daily P&L, credits cash with `shares * exit`, removes the position and
its trailing stop exactly on a full close, and on a partial close only
reduces the share count, leaving the trailing stops untouched. -/
theorem sell_updates_books (s : BotState) (symbol : String) (price shares : ℚ)
    (p : Position)
    (hpos : lookupA s.positions symbol = some p)
    (hn1 : (s.positions.map Prod.fst).Nodup)
    (hn2 : (s.trailing_stops.map Prod.fst).Nodup)
    (hle : shares ≤ p.shares) :
    (execute_sell true s symbol price shares).1 = true ∧
    (execute_sell true s symbol price shares).2.daily_pl
      = s.daily_pl + (price - p.entry_price) * shares ∧
    (execute_sell true s symbol price shares).2.cash = s.cash + shares * price ∧
    (shares = p.shares →
      lookupA (execute_sell true s symbol price shares).2.positions symbol = none ∧
      lookupA (execute_sell true s symbol price shares).2.trailing_stops symbol = none) ∧
    (shares < p.shares →
      lookupA (execute_sell true s symbol price shares).2.positions symbol
        = some { p with shares := p.shares - shares } ∧
      (execute_sell true s symbol price shares).2.trailing_stops = s.trailing_stops) := by
  by_cases hfull : p.shares ≤ shares
  · refine ⟨by simp [execute_sell, hpos, hfull], by simp [execute_sell, hpos, hfull],
      by simp [execute_sell, hpos, hfull], fun _ => ⟨?_, ?_⟩, fun hlt => ?_⟩
    · simp [execute_sell, hpos, hfull, lookupA_eraseA_self _ _ hn1]
    · simp [execute_sell, hpos, hfull, lookupA_eraseA_self _ _ hn2]
    · exact absurd hlt (not_lt.mpr hfull)
  · refine ⟨by simp [execute_sell, hpos, hfull], by simp [execute_sell, hpos, hfull],
      by simp [execute_sell, hpos, hfull], fun heq => ?_, fun _ => ⟨?_, ?_⟩⟩
    · exact absurd (le_of_eq heq.symm) hfull
    · simp [execute_sell, hpos, hfull, lookupA_insertA_self]
    · simp [execute_sell, hpos, hfull]

/-- Witness for C3 (the round-trip scenario): a position opened at entry 100
with 10 shares, fully sold at 120, yields P&L 200 and the position is removed
entirely. -/
theorem sell_updates_books_witness :
    (execute_sell true c3_state "XYZ" 120 10).1 = true ∧
    (execute_sell true c3_state "XYZ" 120 10).2.daily_pl = 200 ∧
    (execute_sell true c3_state "XYZ" 120 10).2.cash = 1200 ∧
    lookupA (execute_sell true c3_state "XYZ" 120 10).2.positions "XYZ" = none := by
  have h := sell_updates_books c3_state "XYZ" 120 10
    { shares := 10, entry_price := 100, strategy := "sentiment" }
    (by rfl) (by simp [c3_state]) (by simp [c3_state]) (by norm_num)
  refine ⟨h.1, ?_, ?_, (h.2.2.2.1 rfl).1⟩
  · rw [h.2.1]
    norm_num [c3_state]
  · rw [h.2.2.1]
    norm_num [c3_state]

/-- C10: a sell request for at least the held share count (broker success)
removes the position entirely, deletes its trailing stop, credits cash with
the full requested `shares * exit_price`, and realizes P&L over the requested
share count — the request is not clamped to the held amount. -/
theorem oversell_not_clamped (s : BotState) (symbol : String) (price shares : ℚ)
    (p : Position)
    (hpos : lookupA s.positions symbol = some p)
    (hn1 : (s.positions.map Prod.fst).Nodup)
    (hn2 : (s.trailing_stops.map Prod.fst).Nodup)
    (hge : p.shares ≤ shares) :
    (execute_sell true s symbol price shares).1 = true ∧
    (execute_sell true s symbol price shares).2.cash = s.cash + shares * price ∧
    (execute_sell true s symbol price shares).2.daily_pl
      = s.daily_pl + (price - p.entry_price) * shares ∧
    lookupA (execute_sell true s symbol price shares).2.positions symbol = none ∧
    lookupA (execute_sell true s symbol price shares).2.trailing_stops symbol = none := by
  refine ⟨by simp [execute_sell, hpos, hge], by simp [execute_sell, hpos, hge],
    by simp [execute_sell, hpos, hge], ?_, ?_⟩
  · simp [execute_sell, hpos, hge, lookupA_eraseA_self _ _ hn1]
  · simp [execute_sell, hpos, hge, lookupA_eraseA_self _ _ hn2]

/-- Witness for C10: requesting 15 shares from a 10-share position at exit
120 credits the full 1800, realizes P&L over all 15 requested shares, and
removes the position and its trailing stop. -/
theorem oversell_not_clamped_witness :
    (execute_sell true c10_state "XYZ" 120 15).1 = true ∧
    (execute_sell true c10_state "XYZ" 120 15).2.cash = 1800 ∧
    (execute_sell true c10_state "XYZ" 120 15).2.daily_pl = 300 ∧
    lookupA (execute_sell true c10_state "XYZ" 120 15).2.positions "XYZ" = none ∧
    lookupA (execute_sell true c10_state "XYZ" 120 15).2.trailing_stops "XYZ" = none := by
  have h := oversell_not_clamped c10_state "XYZ" 120 15
    { shares := 10, entry_price := 100, strategy := "breakout" }
    (by rfl) (by simp [c10_state]) (by simp [c10_state]) (by norm_num)
  refine ⟨h.1, ?_, ?_, h.2.2.2.1, h.2.2.2.2⟩
  · rw [h.2.1]
    norm_num [c10_state]
  · rw [h.2.2.1]
    norm_num [c10_state]

/-- C9: both quality scorers return a value in the closed interval [0, 100]
on every input — every frame, RSI and volatility argument, every square-root
and RSI kernel, and every window. -/
theorem quality_scores_in_range :
    (∀ (df : DataFrame) (rsi volatility : ℚ),
       0 ≤ analyze_breakout_quality df rsi volatility ∧
       analyze_breakout_quality df rsi volatility ≤ 100) ∧
    (∀ (sqrtK : ℚ → ℚ) (rsiK : List ℚ → ℕ → ℚ) (bars : List Bar) (window : ℕ),
       0 ≤ get_mean_reversion_score sqrtK rsiK bars window ∧
       get_mean_reversion_score sqrtK rsiK bars window ≤ 100) := by
  constructor
  · intro df r v
    unfold analyze_breakout_quality
    by_cases h : df.bars.isEmpty
    · rw [if_pos h]
      exact ⟨le_min (abq_f1_bounds r).1 (by norm_num), min_le_right _ _⟩
    · rw [if_neg h]
      refine ⟨le_min ?_ (by norm_num), min_le_right _ _⟩
      have h1 := (abq_f1_bounds r).1
      have h2 := (abq_f2_bounds df.bars).1
      have h3 := (abq_f3_bounds df.bars).1
      have h4 := (abq_f4_bounds v).1
      have h5 := (abq_f5_bounds df).1
      linarith
  · intro sq rk bars w
    unfold get_mean_reversion_score
    split_ifs with h1 h2 h3
    · exact ⟨le_refl 0, by norm_num⟩
    · exact ⟨le_refl 0, by norm_num⟩
    · exact ⟨le_refl 0, by norm_num⟩
    · refine ⟨le_min ?_ (by norm_num), min_le_right _ _⟩
      have g1 := (mrs_f1_bounds bars w).1
      have g2 := (mrs_f2_bounds rk bars).1
      have g3 := (mrs_f3_bounds sq bars w).1
      have g4 := (mrs_f4_bounds bars w).1
      have g5 := (mrs_f5_bounds sq bars w).1
      linarith

@[simp] theorem XQ.mul_num_num (a b : ℚ) : XQ.mul (XQ.num a) (XQ.num b) = XQ.num (a * b) := rfl

theorem shift1_rollingMax_last (l : List ℚ) (period : ℕ) (hp : 0 < period)
    (h : period + 1 ≤ l.length) :
    (shift1 (rollingMaxCol period l)).getLastD XQ.nan
      = XQ.num (maxD ((l.drop (l.length - 1 - period)).take period)) := by
  obtain ⟨m, hm⟩ : ∃ m, l.length = m + 2 := ⟨l.length - 2, by omega⟩
  unfold rollingMaxCol
  rw [hm, shift1_colOf_getLastD, if_neg (by omega)]
  unfold windowEnd
  have harith : m + 2 - 1 - period = m + 1 - period := by omega
  rw [harith]

theorem shift1_rollingMin_last (l : List ℚ) (period : ℕ) (hp : 0 < period)
    (h : period + 1 ≤ l.length) :
    (shift1 (rollingMinCol period l)).getLastD XQ.nan
      = XQ.num (minD ((l.drop (l.length - 1 - period)).take period)) := by
  obtain ⟨m, hm⟩ : ∃ m, l.length = m + 2 := ⟨l.length - 2, by omega⟩
  unfold rollingMinCol
  rw [hm, shift1_colOf_getLastD, if_neg (by omega)]
  unfold windowEnd
  have harith : m + 2 - 1 - period = m + 1 - period := by omega
  rw [harith]

theorem calculate_average_volume_eq (bars : List Bar) (period : ℕ) (hp : 0 < period)
    (hlen : period ≤ bars.length) (hne : bars ≠ []) :
    calculate_average_volume bars period = XQ.num (trailingAvgVolume bars period) := by
  unfold calculate_average_volume trailingAvgVolume meanW windowEnd
  rw [if_neg (by omega), if_neg (by simpa using hne), if_neg (by omega)]
  have h1 : bars.length - 1 + 1 - period = bars.length - period := by omega
  rw [h1]
  have h2 : ((bars.map (·.volume)).drop (bars.length - period)).take period
      = (bars.map (·.volume)).drop (bars.length - period) := by
    have := take_drop_self (bars.map (·.volume)) period (by simpa using hlen)
    simpa [List.length_map] using this
  rw [h2]

/-- C4: on fewer than `period + 5` bars both detectors return false; on at
least `period + 5` bars (for a positive period) the breakout detector fires
exactly when the last bar's high and close both exceed the maximum high of
the `period` bars before it and the last volume exceeds twice the trailing
`period`-average volume — and the breakdown detector is the mirror on the
minimum of the lows with the inequalities reversed. -/
theorem breakout_detectors_characterized :
    (∀ (df : DataFrame) (period : ℕ), df.bars.length < period + 5 →
       (detect_breakouts df period).1 = false ∧ (detect_breakdown df period).1 = false) ∧
    (∀ (df : DataFrame) (period : ℕ), 0 < period → period + 5 ≤ df.bars.length →
       ((detect_breakouts df period).1 = true ↔
         (priorWindowHigh df.bars period < (lastBar df.bars).high ∧
          priorWindowHigh df.bars period < (lastBar df.bars).close ∧
          2 * trailingAvgVolume df.bars period < (lastBar df.bars).volume)) ∧
       ((detect_breakdown df period).1 = true ↔
         ((lastBar df.bars).low < priorWindowLow df.bars period ∧
          (lastBar df.bars).close < priorWindowLow df.bars period ∧
          2 * trailingAvgVolume df.bars period < (lastBar df.bars).volume))) := by
  constructor
  · intro df period h
    constructor
    · unfold detect_breakouts
      rw [if_pos h]
    · unfold detect_breakdown
      rw [if_pos h]
  · intro df period hp hlen
    have hne : df.bars ≠ [] := by
      intro hc
      rw [hc] at hlen
      simp at hlen
    constructor
    · unfold detect_breakouts
      rw [if_neg (by omega), if_neg (by omega)]
      dsimp only
      have hHigh : (shift1 (rollingMaxCol period (df.bars.map (·.high)))).getLastD XQ.nan
          = XQ.num (priorWindowHigh df.bars period) := by
        unfold priorWindowHigh
        rw [shift1_rollingMax_last _ _ hp (by simp only [List.length_map]; omega)]
        simp only [List.length_map]
      rw [hHigh, calculate_average_volume_eq df.bars period hp (by omega) hne]
      simp only [XQ.mul_num_num, XQ.ltB_num_num, Bool.and_eq_true, decide_eq_true_eq,
        and_assoc]
      constructor
      · rintro ⟨a, b, c⟩
        exact ⟨a, b, by linarith⟩
      · rintro ⟨a, b, c⟩
        exact ⟨a, b, by linarith⟩
    · unfold detect_breakdown
      rw [if_neg (by omega), if_neg (by omega)]
      dsimp only
      have hLow : (shift1 (rollingMinCol period (df.bars.map (·.low)))).getLastD XQ.nan
          = XQ.num (priorWindowLow df.bars period) := by
        unfold priorWindowLow
        rw [shift1_rollingMin_last _ _ hp (by simp only [List.length_map]; omega)]
        simp only [List.length_map]
      rw [hLow, calculate_average_volume_eq df.bars period hp (by omega) hne]
      simp only [XQ.mul_num_num, XQ.ltB_num_num, Bool.and_eq_true, decide_eq_true_eq,
        and_assoc]
      constructor
      · rintro ⟨a, b, c⟩
        exact ⟨a, b, by linarith⟩
      · rintro ⟨a, b, c⟩
        exact ⟨a, b, by linarith⟩

/-- Witness for C4 (the spec scenario): 25 bars with a flat high of 100
except a last bar with high 105, close 104.5 and volume three times the
baseline — the breakout detector fires. -/
theorem breakout_detectors_witness :
    20 + 5 ≤ c4_df.bars.length ∧ (detect_breakouts c4_df 20).1 = true := by
  have h := breakout_detectors_characterized.2 c4_df 20 (by norm_num) (by decide)
  exact ⟨by decide, (h.1).mpr (by with_unfolding_all decide)⟩

/-- C2 (amended): once set, a position's trailing stop never decreases across
any sequence of `check_stop_losses` maintenance cycles, for every price feed
and broker outcome (one cycle shown here; cycles compose by transitivity).
It is not preserved by additional breakout buys of the same symbol, which
re-initialize the stop to `price * (1 - TRAILING_STOP_PERCENT)` and can
lower it — see the counterexample. -/
theorem trailing_stop_monotone_under_maintenance (ok : String → Bool)
    (priceOf : String → Option ℚ) (s : BotState) (x : String) (t t2 : ℚ)
    (hn : (s.trailing_stops.map Prod.fst).Nodup)
    (hb : lookupA s.trailing_stops x = some t)
    (ha : lookupA (check_stop_losses ok priceOf s).trailing_stops x = some t2) :
    t ≤ t2 := by
  unfold check_stop_losses at ha
  exact foldl_stop_loss_mono ok priceOf (s.positions.map Prod.fst) s x t t2 hn hb ha

/-- Witness for C2: a maintenance cycle at price 101 on a breakout position
with stop 90 ratchets the stop up to 90.9, never down. -/
theorem trailing_stop_monotone_witness :
    lookupA c2m_state.trailing_stops "AAPL" = some 90 ∧
    lookupA (check_stop_losses allOk (priceAt 101) c2m_state).trailing_stops "AAPL"
      = some (909/10) ∧
    (90 : ℚ) ≤ 909/10 := by
  refine ⟨by with_unfolding_all decide, by with_unfolding_all decide, ?_⟩
  exact trailing_stop_monotone_under_maintenance allOk (priceAt 101) c2m_state "AAPL"
    90 (909/10) (by simp [c2m_state]) (by with_unfolding_all decide)
    (by with_unfolding_all decide)

/-- Counterexample for C2 as stated: after a breakout buy at 100 the trailing
stop is 90; a second breakout buy of the same symbol at 92 re-initializes it
to 82.8, strictly below 90 — the stop is not monotone across additional
buys of the same symbol. -/
theorem trailing_stop_lowered_by_second_buy :
    lookupA c2_s1.trailing_stops "AAPL" = some 90 ∧
    lookupA c2_s2.trailing_stops "AAPL" = some (414/5) ∧
    (414/5 : ℚ) < 90 := by
  refine ⟨by with_unfolding_all decide, by with_unfolding_all decide,
    by with_unfolding_all decide⟩

/-- Counterexample for C5 as stated: on `c5_bars` the deviation factor has
already accumulated its 30 points when the bounce factor raises (third-from-
last close 94 at or below its lower band 96), yet the scorer returns 0 — the
single except handler discards the whole score instead of omitting only the
offending factor's points. -/
theorem mrs_exception_zeroes_score :
    get_mean_reversion_score sqrtK4 (constRSIK 25) c5_bars 20 = 0 ∧
    mrs_f1 c5_bars 20 = 30 ∧
    mrs_raises sqrtK4 c5_bars 20 = true := by
  refine ⟨by with_unfolding_all decide, by with_unfolding_all decide,
    by with_unfolding_all decide⟩

/-- C5 (amended): in the mean-reversion scorer an exception (raised whenever
the bounce-factor test reaches its scalar `shift` call, i.e. `mrs_raises`)
discards all accumulated factor points and returns 0; in the breakout scorer
the only exception path — an empty frame, raising while reading the last
volume — returns the points already accumulated (the RSI factor), skipping
the remaining factors rather than zeroing the score. -/
theorem scorer_exception_behaviour (sqrtK : ℚ → ℚ) (rsiK : List ℚ → ℕ → ℚ)
    (bars : List Bar) (window : ℕ) (df : DataFrame) (rsi volatility : ℚ) :
    (mrs_raises sqrtK bars window = true →
       get_mean_reversion_score sqrtK rsiK bars window = 0) ∧
    (df.bars = [] →
       analyze_breakout_quality df rsi volatility = min (abq_f1 rsi) 100) := by
  constructor
  · intro h
    unfold get_mean_reversion_score
    simp [h]
  · intro h
    unfold analyze_breakout_quality
    rw [if_pos (by simp [h])]

/-- Witness for C5 (amended): the raising input zeroes the mean-reversion
score, and the empty frame keeps the breakout scorer's RSI points. -/
theorem scorer_exception_behaviour_witness :
    (mrs_raises sqrtK4 c5_bars 20 = true ∧
     get_mean_reversion_score sqrtK4 (constRSIK 25) c5_bars 20 = 0) ∧
    (emptyDF.bars = [] ∧ analyze_breakout_quality emptyDF 70 1 = min (abq_f1 70) 100) := by
  have h := scorer_exception_behaviour sqrtK4 (constRSIK 25) c5_bars 20 emptyDF 70 1
  exact ⟨⟨by with_unfolding_all decide, h.1 (by with_unfolding_all decide)⟩, rfl, h.2 rfl⟩

/-- C6 (amended): `calculate_rsi` never raises to its caller; it returns 50
exactly from its except branch — an empty frame, where reading the last
element raises — while on a nonempty frame with at most `period` bars
(insufficient data) it returns a missing value (NaN), not 50. -/
theorem rsi_insufficient_data_returns_nan (rsiK : List ℚ → ℕ → ℚ) (df : DataFrame)
    (period : ℕ) :
    (df.bars = [] → (calculate_rsi rsiK df period).1 = XQ.num 50) ∧
    (df.bars ≠ [] → df.bars.length ≤ (if period = 0 then 14 else period) →
       (calculate_rsi rsiK df period).1 = XQ.nan) := by
  constructor
  · intro h
    unfold calculate_rsi
    rw [if_pos (by simp [h])]
  · intro hne hlen
    unfold calculate_rsi
    rw [if_neg (by simpa using hne)]
    dsimp only
    unfold taRSICol
    dsimp only
    obtain ⟨m, hm⟩ : ∃ m, df.bars.length = m + 1 := by
      cases hb : df.bars with
      | nil => exact absurd hb hne
      | cons b bs => exact ⟨bs.length, by simp [hb]⟩
    rw [List.length_map, hm, colOf_getLastD]
    rw [hm] at hlen
    rw [if_pos (by omega)]

/-- Counterexample for C6 as stated: on a five-bar series (fewer than the
14-bar period) `calculate_rsi` returns NaN, not the neutral 50. -/
theorem rsi_short_series_not_50 :
    (calculate_rsi (constRSIK 0) c6_df 14).1 = XQ.nan ∧ XQ.nan ≠ XQ.num 50 := by
  exact ⟨by with_unfolding_all decide, by decide⟩

/-- Witness for C6 (amended): the empty frame returns 50, the five-bar frame
returns NaN. -/
theorem rsi_insufficient_data_witness :
    (calculate_rsi (constRSIK 0) emptyDF 14).1 = XQ.num 50 ∧
    (c6_df.bars ≠ [] ∧ c6_df.bars.length ≤ 14 ∧
     (calculate_rsi (constRSIK 0) c6_df 14).1 = XQ.nan) := by
  constructor
  · exact (rsi_insufficient_data_returns_nan (constRSIK 0) emptyDF 14).1 rfl
  · refine ⟨by simp [c6_df], by decide, ?_⟩
    exact (rsi_insufficient_data_returns_nan (constRSIK 0) c6_df 14).2
      (by simp [c6_df]) (by decide)

/-- C7 (amended): the detectors, the band calculation and the RSI indicator
never change, drop or reorder the bars of the caller's series — but they do
mutate the caller's frame in place by assigning derived columns
(`n_period_high`, `n_period_low`, the band columns, `rsi`); see the
counterexample. -/
theorem operations_preserve_bars (df : DataFrame) (period window : ℕ)
    (num_std : ℚ) (sqrtK : ℚ → ℚ) (rsiK : List ℚ → ℕ → ℚ) :
    ((detect_breakouts df period).2).bars = df.bars ∧
    ((detect_breakdown df period).2).bars = df.bars ∧
    (calculate_bollinger_bands sqrtK df window num_std).bars = df.bars ∧
    ((calculate_rsi rsiK df period).2).bars = df.bars := by
  refine ⟨?_, ?_, ?_, ?_⟩
  · unfold detect_breakouts
    split_ifs <;> rfl
  · unfold detect_breakdown
    split_ifs <;> rfl
  · unfold calculate_bollinger_bands
    split_ifs <;> rfl
  · unfold calculate_rsi
    split_ifs <;> rfl

/-- Counterexample for C7 as stated: a `detect_breakouts` call on 25 bars
returns a frame that differs from the caller's — the `n_period_high` column
has been assigned in place — even though the bars are untouched. -/
theorem detect_breakouts_mutates_frame :
    (detect_breakouts c7_df 20).2 ≠ c7_df ∧ (detect_breakouts c7_df 20).2.bars = c7_df.bars := by
  constructor
  · intro heq
    have h2 : (detect_breakouts c7_df 20).2.n_period_high = none :=
      (congrArg DataFrame.n_period_high heq).trans rfl
    have h4 : (detect_breakouts c7_df 20).2.n_period_high
        = some (shift1 (rollingMaxCol 20 (c7_df.bars.map (·.high)))) := rfl
    rw [h4] at h2
    exact Option.some_ne_none _ h2
  · rfl

/-- C8: level clustering is exactly the greedy grouping of the ascending sort
— a level joins the open group iff its relative distance to the group's
last-added member is at most the threshold, each group contributing its
arithmetic mean — and on `[100.0, 100.5, 100.6, 120.0]` with the default 1%
threshold it emits exactly the two levels 3011/30 (≈ 100.37) and 120. -/
theorem level_clustering_characterized :
    (∀ (levels : List ℚ) (threshold : ℚ), levels ≠ [] →
       group_similar_levels levels threshold
         = (clusterGroups threshold (sortLevels levels)).map meanQ) ∧
    group_similar_levels [100, 100.5, 100.6, 120] (1/100) = [3011/30, 120] := by
  constructor
  · intro levels threshold h
    unfold group_similar_levels clusterGroups
    cases hs : sortLevels levels with
    | nil => rfl
    | cons s0 rest =>
        dsimp only
        have hfold := glsStep_foldl threshold rest [] [s0] (by simp)
        simpa using hfold
  · norm_num [group_similar_levels, sortLevels, insertLevel, glsStep, meanQ, sumQ,
      abs, max_def]

/-- Witness for C8: the characterization applied to the concrete four-level
list of the scenario. -/
theorem level_clustering_witness :
    ([100, 100.5, 100.6, 120] : List ℚ) ≠ [] ∧
    group_similar_levels [100, 100.5, 100.6, 120] (1/100)
      = (clusterGroups (1/100) (sortLevels [100, 100.5, 100.6, 120])).map meanQ := by
  exact ⟨by simp, level_clustering_characterized.1 [100, 100.5, 100.6, 120] (1/100) (by simp)⟩
